import Mathlib

/-!
Verification development for the unified truck-listing scraper
(src/truck_listing_scraper.py).  The Python source is shallowly embedded:
the Selenium browser is modelled as an abstract handle that answers element
queries (the spec treats browser control as an external collaborator with a
query capability), Python dicts are modelled as insertion-ordered
association lists, and the Python string operations used by the scraper are
re-implemented over lists of characters with structural recursion so that
every definition evaluates inside the kernel.
-/

namespace TruckScraper

/-! ## Python string primitives (ASCII fragment used by the scraper) -/

/-- Whitespace characters stripped by Python str.strip and matched by the
regex class backslash-s, restricted to the ASCII range that the scraped
strings use. -/
def isPySpace (c : Char) : Bool :=
  c = ' ' || c = '\t' || c = '\n' || c = '\r' || c = '\x0b' || c = '\x0c'

/-- Model of Python str.strip() (no arguments): drop leading and trailing
whitespace. -/
def pyStripList (l : List Char) : List Char :=
  ((l.dropWhile isPySpace).reverse.dropWhile isPySpace).reverse

/-- Model of Python str.strip() on strings. -/
def pyStrip (s : String) : String :=
  ⟨pyStripList s.data⟩

/-- Model of Python str.lower() for the ASCII strings handled here. -/
def pyLower (s : String) : String :=
  ⟨s.data.map Char.toLower⟩

/-- Boolean check that the needle occurs as a contiguous run inside the
haystack, scanning left to right. -/
def listHasRun (needle : List Char) : List Char → Bool
  | [] => needle.isEmpty
  | c :: rest => needle.isPrefixOf (c :: rest) || listHasRun needle rest

/-- Model of the Python substring test (needle in hay). -/
def strContains (hay needle : String) : Bool :=
  listHasRun needle.data hay.data

/-- Model of Python str.startswith. -/
def pyStartsWith (s pre : String) : Bool :=
  pre.data.isPrefixOf s.data

/-- Model of Python truthiness for an optional string: None and the empty
string are falsy, any other string is truthy. -/
def pyTruthy : Option String → Bool
  | none => false
  | some s => s != ""

/-- Model of Python str.split(sep) for a one-character separator. -/
def pySplitChar (sep : Char) : List Char → List (List Char)
  | [] => [[]]
  | c :: rest =>
    if c = sep then
      [] :: pySplitChar sep rest
    else
      match pySplitChar sep rest with
      | [] => [[c]]
      | g :: gs => (c :: g) :: gs

/-- Fuel-indexed scanner for Python str.replace: replaces non-overlapping
occurrences left to right.  The fuel is the length of the scanned list, so
the recursion is structural; an empty needle is left unreplaced (the
scraper only replaces non-empty needles). -/
def pyReplaceAux (needle repl : List Char) : Nat → List Char → List Char
  | 0, s => s
  | _ + 1, [] => []
  | fuel + 1, c :: rest =>
    if needle ≠ [] ∧ needle.isPrefixOf (c :: rest) then
      repl ++ pyReplaceAux needle repl fuel (rest.drop (needle.length - 1))
    else
      c :: pyReplaceAux needle repl fuel rest

/-- Model of Python str.replace(needle, repl) (all occurrences). -/
def pyReplace (s needle repl : String) : String :=
  ⟨pyReplaceAux needle.data repl.data s.data.length s.data⟩

/-- Model of Python str.title(): the first character of each maximal run of
letters is uppercased and the rest are lowercased (ASCII letters). -/
def pyTitleAux : List Char → Bool → List Char
  | [], _ => []
  | c :: rest, prevAlpha =>
    (if c.isAlpha then (if prevAlpha then c.toLower else c.toUpper) else c)
      :: pyTitleAux rest c.isAlpha

/-- Model of Python str.title(). -/
def pyTitle (s : String) : String :=
  ⟨pyTitleAux s.data false⟩

/-- Index of the first occurrence of a needle inside a list of characters,
scanning left to right. -/
def findSubstrIdx (needle : List Char) : List Char → Nat → Option Nat
  | [], i => if needle.isEmpty then some i else none
  | c :: rest, i =>
    if needle.isPrefixOf (c :: rest) then some i
    else findSubstrIdx needle rest (i + 1)

/-- Model of Python " - ".join(parts) with an arbitrary separator. -/
def pyJoin (sep : String) : List String → String
  | [] => ""
  | [x] => x
  | x :: xs => x ++ sep ++ pyJoin sep xs

/-- Model of the last element of a Python str.split result (index -1);
split always returns a non-empty list, so the default is never used. -/
def pySplitLast (sep : Char) (s : String) : String :=
  ⟨(pySplitChar sep s.data).getLastD []⟩

/-! ## Browser model

Selenium is the external browser-control collaborator: the core only needs
a query capability (find one element by a locator, read its text, read an
attribute).  An element answers its rendered text and its attributes; a
driver answers single-element lookups, returning none when the lookup
raises NoSuchElementException. -/

/-- A DOM element handle: its rendered text and its attribute table
(get_attribute returns None for a missing attribute). -/
structure Element where
  text : String
  attrs : String → Option String

/-- Selenium locator kinds used by the scraper (the By enum members that
appear in the source). -/
inductive By where
  | cssSelector
  | className
  | id
  | xpath
deriving DecidableEq

/-- A driver handle for one loaded page: find answers a single-element
lookup, none modelling NoSuchElementException. -/
structure Driver where
  find : By → String → Option Element

/-- Dispatch of the method string in safe_find_element_text /
safe_find_element_attribute: css, class, id, xpath, anything else falling
back to a CSS lookup (the if/elif chain of the source). -/
def methodToBy (method : String) : By :=
  if method = "css" then By.cssSelector
  else if method = "class" then By.className
  else if method = "id" then By.id
  else if method = "xpath" then By.xpath
  else By.cssSelector

/-- CraigslistScraper.safe_find_element_text: find the element and return
its stripped text, or the empty string if the lookup fails. -/
def safe_find_element_text (d : Driver) (selector : String)
    (method : String := "css") : String :=
  match d.find (methodToBy method) selector with
  | some element => pyStrip element.text
  | none => ""

/-- CraigslistScraper.safe_find_element_attribute: find the element and
return the attribute value (with None coerced to the empty string by the
"or" idiom), or the empty string if the lookup fails. -/
def safe_find_element_attribute (d : Driver) (selector attr : String)
    (method : String := "css") : String :=
  match d.find (methodToBy method) selector with
  | some element => (element.attrs attr).getD ""
  | none => ""

/-! ## Python dict model

Records are Python dicts from field names to strings (or None), modelled
as insertion-ordered association lists.  Values are Option String so that
None is representable, as in the Facebook record whose url key stores the
raw href. -/

/-- A Python dict with string keys and string-or-None values, in insertion
order. -/
abbrev PyDict := List (String × Option String)

/-- Python dict assignment: update the value in place if the key exists,
otherwise append the binding at the end. -/
def dictSet : PyDict → String → Option String → PyDict
  | [], k, v => [(k, v)]
  | (k', v') :: rest, k, v =>
    if k' = k then (k', v) :: rest else (k', v') :: dictSet rest k v

/-- Python dict lookup: none means the key is absent, some v means the key
is present with value v (itself possibly None). -/
def dictGet : PyDict → String → Option (Option String)
  | [], _ => none
  | (k', v') :: rest, k => if k' = k then some v' else dictGet rest k

/-- Lookup flattened to the stored value, for keys known to be present. -/
def pyGet (m : PyDict) (k : String) : Option String :=
  (dictGet m k).join

/-! ## Title regex model

re.match with pattern (backslash-d{4}) backslash-s+ ([A-Za-z]+)
backslash-s+ ([A-Za-z0-9 hyphen whitespace]+), anchored at the start of the
title, with groups year / make / model.  The first three pieces match
greedily without backtracking because digits, whitespace and letters are
pairwise disjoint; the final whitespace run can donate its last character
to the third group when nothing else follows, which is the only
backtracking the pattern ever needs. -/

/-- The character class of the third capture group: letters, digits,
hyphen, whitespace. -/
def isTitleModelChar (c : Char) : Bool :=
  c.isAlpha || c.isDigit || c = '-' || isPySpace c

/-- Model of
re.match over the title, returning (group 1, group 2, group 3) on a
match. -/
def titleMatch (title : String) : Option (String × String × String) :=
  match title.data with
  | d1 :: d2 :: d3 :: d4 :: rest =>
    if d1.isDigit && d2.isDigit && d3.isDigit && d4.isDigit then
      let (ws1, r1) := rest.span isPySpace
      if ws1 = [] then none
      else
        let (mk, r2) := r1.span Char.isAlpha
        if mk = [] then none
        else
          let (ws2, r3) := r2.span isPySpace
          if ws2 = [] then none
          else
            let g3 := r3.takeWhile isTitleModelChar
            if g3 ≠ [] then some (⟨[d1, d2, d3, d4]⟩, ⟨mk⟩, ⟨g3⟩)
            else if ws2.length ≥ 2 then
              some (⟨[d1, d2, d3, d4]⟩, ⟨mk⟩, ⟨[ws2.getLastD ' ']⟩)
            else none
    else none
  | _ => none

/-! ## Location cleanup helpers of extract_listing_details -/

/-- Model of re.sub over the primary location: delete every open or close
parenthesis. -/
def removeParens (s : String) : String :=
  ⟨s.data.filter (fun c => !(c = '(' || c = ')'))⟩

/-- Intercalate lines with a newline character. -/
def joinLinesNl : List (List Char) → List Char
  | [] => []
  | [x] => x
  | x :: xs => x ++ '\n' :: joinLinesNl xs

/-- Model of the address cleanup re.sub (pattern: google map, then any
characters, then the dollar anchor; IGNORECASE, no MULTILINE, no DOTALL).
Dot does not cross newlines and the dollar anchors only at the end of the
string or just before one final trailing newline, so the substitution can
only delete a case-insensitive occurrence of google map together with the
rest of the final line. -/
def removeGoogleMapSuffix (address : String) : String :=
  let hasNl := address.data.getLastD ' ' = '\n'
  let body : List Char := if hasNl then address.data.dropLast else address.data
  let lines := pySplitChar '\n' body
  let lastLine := lines.getLastD []
  match findSubstrIdx ("google map".data) (lastLine.map Char.toLower) 0 with
  | some i =>
    ⟨joinLinesNl (lines.dropLast ++ [lastLine.take i]) ++
      (if hasNl then ['\n'] else [])⟩
  | none => address

/-! ## Detail record builder (CraigslistScraper.extract_listing_details)

The model takes the driver handle for the already-navigated detail page,
the listing url, and the timestamp produced by datetime.now (an opaque
string here).  The source wraps the body in try/except and returns None
when navigation itself blows up; the model covers the non-raising
executions, which is where every claim about the built record lives. -/

/-- The dict literal the builder starts from: every schema field keyed,
string-valued, empty-string sentinel for the not-yet-extracted ones. -/
def craigslistBaseRecord (listing_url now : String) : PyDict :=
  [("url", some listing_url), ("title", some ""), ("price", some ""),
   ("year", some ""), ("make", some ""), ("model", some ""),
   ("vin", some ""), ("mileage", some ""), ("cylinders", some ""),
   ("drive", some ""), ("fuel", some ""), ("color", some ""),
   ("transmission", some ""), ("type", some ""), ("location", some ""),
   ("google_maps_link", some ""), ("date_posted", some ""),
   ("date_scraped", some now), ("source", some "Craigslist")]

/-- The field names of the Craigslist record, in insertion order. -/
def craigslistFields : List String :=
  ["url", "title", "price", "year", "make", "model", "vin", "mileage",
   "cylinders", "drive", "fuel", "color", "transmission", "type",
   "location", "google_maps_link", "date_posted", "date_scraped", "source"]

/-- The title fallback chain: four selectors, first truthy result wins. -/
def craigslistTitle (d : Driver) : String :=
  let t := safe_find_element_text d "#titletextonly" "id"
  if t ≠ "" then t else
  let t := safe_find_element_text d ".postingtitletext .titletextonly" "css"
  if t ≠ "" then t else
  let t := safe_find_element_text d "h1 .titletextonly" "css"
  if t ≠ "" then t else
  safe_find_element_text d ".postingtitle" "css"

/-- The title section of the builder: store the extracted title and parse
year, make and model from it when the leading-year pattern matches;
synthesize a title from the URL's last path segment when nothing was
extracted. -/
def craigslistTitleStep (d : Driver) (listing_url : String)
    (listing_data : PyDict) : PyDict :=
  let title := craigslistTitle d
  if title ≠ "" then
    let ld := dictSet listing_data "title" (some title)
    match titleMatch title with
    | some (y, mk, md) =>
      dictSet (dictSet (dictSet ld "year" (some y)) "make" (some mk))
        "model" (some (pyStrip md))
    | none => ld
  else
    let url_title :=
      pyTitle (pyReplace (pyReplace (pySplitLast '/' listing_url)
        ".html" "") "-" " ")
    dictSet listing_data "title" (some url_title)

/-- One single-selector attribute field of the builder. -/
def craigslistFieldStep (d : Driver) (key selector : String)
    (listing_data : PyDict) : PyDict :=
  dictSet listing_data key (some (safe_find_element_text d selector "css"))

/-- The location section of the builder: cleaned primary location, then
the cleaned map address when it is non-empty and not a duplicate, joined
and stored only when at least one part was collected. -/
def craigslistLocationStep (d : Driver) (listing_data : PyDict) : PyDict :=
  let location_parts : List String := []
  let primary_location := safe_find_element_text d ".postingtitletext small" "css"
  let location_parts :=
    if primary_location ≠ "" then
      location_parts ++ [pyStrip (removeParens primary_location)]
    else location_parts
  let address := safe_find_element_text d ".mapaddress" "css"
  let location_parts :=
    if address ≠ "" then
      let address_clean := pyStrip (removeGoogleMapSuffix address)
      if address_clean ≠ "" ∧ address_clean ∉ location_parts then
        location_parts ++ [address_clean]
      else location_parts
    else location_parts
  if location_parts ≠ [] then
    dictSet listing_data "location" (some (pyJoin " - " location_parts))
  else listing_data

/-- The posting-date section of the builder: four fallback lookups, the
result stored only when truthy. -/
def craigslistDateStep (d : Driver) (listing_data : PyDict) : PyDict :=
  let date_posted :=
    let t := safe_find_element_attribute d "time.date.timeago" "datetime" "css"
    if t ≠ "" then t else
    let t := safe_find_element_attribute d "time.date.timeago" "title" "css"
    if t ≠ "" then t else
    let t := safe_find_element_text d "time.date.timeago" "css"
    if t ≠ "" then t else
    safe_find_element_text d ".postinginfos .postinginfo:first-child .date" "css"
  if date_posted ≠ "" then
    dictSet listing_data "date_posted" (some date_posted)
  else listing_data

/-- CraigslistScraper.extract_listing_details: the base dict literal,
then the title, attribute-table, location, maps-link and posting-date
sections in source order. -/
def extract_listing_details (d : Driver) (listing_url now : String) :
    PyDict :=
  craigslistDateStep d
    (dictSet
      (craigslistLocationStep d
        (craigslistFieldStep d "type" ".attr.auto_bodytype .valu"
          (craigslistFieldStep d "transmission" ".attr.auto_transmission .valu"
            (craigslistFieldStep d "color" ".attr.auto_paint .valu"
              (craigslistFieldStep d "fuel" ".attr.auto_fuel_type .valu"
                (craigslistFieldStep d "drive" ".attr.auto_drivetrain .valu"
                  (craigslistFieldStep d "cylinders" ".attr.auto_cylinders .valu"
                    (craigslistFieldStep d "mileage" ".attr.auto_miles .valu"
                      (craigslistFieldStep d "vin" ".attr.auto_vin .valu"
                        (craigslistFieldStep d "price" ".price"
                          (craigslistTitleStep d listing_url
                            (craigslistBaseRecord listing_url now))))))))))))
      "google_maps_link"
      (some (safe_find_element_attribute d ".mapaddress a" "href" "css")))

/-! ## Listing URL discoverer (CraigslistScraper.extract_listing_urls)

The loaded search page is modelled by the three container families the
three selector strategies query, each container carrying the href
attributes (possibly None) of the anchors the strategy then inspects.
urljoin is the external URL resolver from urllib, passed in abstractly. -/

/-- A loaded Craigslist search page, as seen through the three container
queries: class result-node (with the hrefs of its a.cl-app-anchor links),
selector .cl-search-result (with the hrefs of its anchors, of which
find_element takes the first), and selector [data-pid] (likewise). -/
structure SearchPage where
  resultNodes : List (List (Option String))
  searchResults : List (List (Option String))
  pidElements : List (List (Option String))

/-- The inner loop of strategy 1 over the anchors of one result-node:
the first href that is truthy, mentions the /d/ detail marker and resolves
to a URL not already collected is appended and the loop breaks; an
already-collected resolution does not break. -/
def nodeLinks (uj : String → String → String) (search_url : String) :
    List String → List (Option String) → List String
  | acc, [] => acc
  | acc, none :: rest => nodeLinks uj search_url acc rest
  | acc, some href :: rest =>
    if href ≠ "" ∧ strContains href "/d/" then
      let full_url := uj search_url href
      if full_url ∈ acc then nodeLinks uj search_url acc rest
      else acc ++ [full_url]
    else nodeLinks uj search_url acc rest

/-- One step of strategies 2 and 3: find_element takes the first anchor of
the container (raising, hence skipping the container, when there is none),
and its href is kept under the same truthiness, marker and dedup tests. -/
def firstAnchorStep (uj : String → String → String) (search_url : String)
    (acc : List String) : List (Option String) → List String
  | [] => acc
  | none :: _ => acc
  | some href :: _ =>
    if href ≠ "" ∧ strContains href "/d/" then
      let full_url := uj search_url href
      if full_url ∈ acc then acc else acc ++ [full_url]
    else acc

/-- The URLs strategy 1 (result-node containers) collects on its own. -/
def craigslistStrategy1 (uj : String → String → String)
    (search_url : String) (page : SearchPage) : List String :=
  page.resultNodes.foldl (nodeLinks uj search_url) []

/-- The URLs strategy 2 (.cl-search-result containers) collects on its
own. -/
def craigslistStrategy2 (uj : String → String → String)
    (search_url : String) (page : SearchPage) : List String :=
  page.searchResults.foldl (firstAnchorStep uj search_url) []

/-- The URLs strategy 3 ([data-pid] containers) collects on its own. -/
def craigslistStrategy3 (uj : String → String → String)
    (search_url : String) (page : SearchPage) : List String :=
  page.pidElements.foldl (firstAnchorStep uj search_url) []

/-- CraigslistScraper.extract_listing_urls: strategy 1, then strategy 2
only when nothing was found, then strategy 3 only when still nothing was
found. -/
def extract_listing_urls (uj : String → String → String)
    (search_url : String) (page : SearchPage) : List String :=
  let listing_urls := page.resultNodes.foldl (nodeLinks uj search_url) []
  if listing_urls.length = 0 then
    let listing_urls := page.searchResults.foldl (firstAnchorStep uj search_url) listing_urls
    if listing_urls.length = 0 then
      page.pidElements.foldl (firstAnchorStep uj search_url) listing_urls
    else listing_urls
  else listing_urls

/-! ## Craigslist orchestration (CraigslistScraper.scrape_craigslist) -/

/-- The truncation applied before visiting: Python "if max_listings and
len(listing_urls) > max_listings", so None and 0 both disable it. -/
def limitListings (max_listings : Option Nat) (listing_urls : List String) :
    List String :=
  match max_listings with
  | none => listing_urls
  | some n =>
    if n ≠ 0 ∧ listing_urls.length > n then listing_urls.take n
    else listing_urls

/-- The per-URL visiting loop of scrape_craigslist: build the record for
each URL and append it exactly when its title, price or vin field is
truthy.  (The source also guards on the record itself being truthy, which
covers the None returned when navigation raises; the model covers the
non-raising executions, where a 19-key dict is always truthy.) -/
def craigslistVisitLoop (site : String → Driver) (now : String) :
    List String → List PyDict → List PyDict
  | [], all_listings => all_listings
  | url :: rest, all_listings =>
    let listing_data := extract_listing_details (site url) url now
    if pyTruthy (pyGet listing_data "title") ||
        pyTruthy (pyGet listing_data "price") ||
        pyTruthy (pyGet listing_data "vin") then
      craigslistVisitLoop site now rest (all_listings ++ [listing_data])
    else
      craigslistVisitLoop site now rest all_listings

/-- CraigslistScraper.scrape_craigslist: discover URLs, bail out on none,
truncate, then visit each URL in order, keeping records that pass the
minimum-signal check. -/
def scrape_craigslist (uj : String → String → String)
    (search_url : String) (page : SearchPage) (site : String → Driver)
    (now : String) (max_listings : Option Nat) : List PyDict :=
  let listing_urls := extract_listing_urls uj search_url page
  if listing_urls = [] then []
  else
    let listing_urls := limitListings max_listings listing_urls
    craigslistVisitLoop site now listing_urls []

/-! ## Scroll convergence controller (FacebookMarketplaceScraper.wait_and_scroll)

get_listing_count is an impure browser query; it is embedded as an oracle
indexed by the call number, so the n-th call of the run returns countFn n.
The result records the count the final post-loop call observed, the number
of scroll-to-bottom actions issued, the number of loop iterations
executed (each makes exactly one in-loop count call), and whether the loop
broke early on the stall limit. -/

/-- Observable outcome of one wait_and_scroll run. -/
structure ScrollResult where
  finalCount : Nat
  scrolls : Nat
  iterations : Nat
  stalled : Bool
deriving DecidableEq

/-- The scroll loop: remaining attempts, next count-call index, last_count,
no_change_count, scrolls issued so far.  Returns the call index after the
loop, the scrolls issued, and whether the stall limit (3) broke the
loop. -/
def scrollLoop (countFn : Nat → Nat) :
    Nat → Nat → Nat → Nat → Nat → Nat × Nat × Bool
  | 0, callIdx, _, _, scrolls => (callIdx, scrolls, false)
  | remaining + 1, callIdx, last_count, no_change_count, scrolls =>
    let current_listings := countFn callIdx
    if current_listings = last_count then
      if no_change_count + 1 ≥ 3 then (callIdx + 1, scrolls, true)
      else
        scrollLoop countFn remaining (callIdx + 1) current_listings
          (no_change_count + 1) (scrolls + 1)
    else
      scrollLoop countFn remaining (callIdx + 1) current_listings 0
        (scrolls + 1)

/-- FacebookMarketplaceScraper.wait_and_scroll: loop with last_count = 0
and no_change_count = 0, then one final count call whose value is
returned. -/
def wait_and_scroll (countFn : Nat → Nat) (scroll_attempts : Nat := 10) :
    ScrollResult :=
  let r := scrollLoop countFn scroll_attempts 0 0 0 0
  ⟨countFn r.1, r.2.1, r.1, r.2.2⟩

/-! ## Facebook bulk extraction (FacebookMarketplaceScraper.extract_all_listings)

Each container node is one anchor matched by the marketplace-item link
query.  The node handle answers the sub-queries the extractor runs against
it: the three XPath price strategies (spans with dir auto and the price
class containing a dollar sign, then any span with dir auto containing a
dollar sign, then any element containing a dollar sign), the img
descendants, the location-pattern elements (text with a comma-space and a
state abbreviation), and the mileage-pattern elements (text mentioning
miles). -/

/-- One marketplace link container, as seen through the sub-queries run
against it. -/
structure FbLink where
  href : Option String
  priceStrategy1 : List Element
  priceStrategy2 : List Element
  priceStrategy3 : List Element
  imgs : List Element
  locationElements : List Element
  mileageElements : List Element

/-- The price-selection loop: first element whose stripped text mentions a
dollar sign with length strictly between 1 and 30, starts with the dollar
sign and contains a digit; an element passing only the outer test does not
break the loop. -/
def pickPrice : List Element → Option String
  | [] => none
  | price_elem :: rest =>
    let price_text := pyStrip price_elem.text
    if strContains price_text "$" ∧ price_text.length < 30 ∧
        price_text.length > 1 then
      if pyStartsWith price_text "$" ∧ price_text.data.any Char.isDigit then
        some price_text
      else pickPrice rest
    else pickPrice rest

/-- The location/mileage classification loop: the first element whose
stripped text contains a comma-space and is shorter than 50 characters is
routed to mileage when its lowercase form mentions mile (or k mile),
otherwise to location, and the loop breaks. -/
def pickLocationOrMileage : List Element → Option (String × Bool)
  | [] => none
  | elem :: rest =>
    let text := pyStrip elem.text
    if strContains text ", " ∧ text.length < 50 then
      if strContains (pyLower text) "mile" ∨ strContains (pyLower text) "k mile" then
        some (text, true)
      else some (text, false)
    else pickLocationOrMileage rest

/-- The fallback mileage loop: the first element whose stripped text
mentions mile (lowercased) and is shorter than 30 characters. -/
def pickMileage : List Element → Option String
  | [] => none
  | elem :: rest =>
    let mileage_text := pyStrip elem.text
    if strContains (pyLower mileage_text) "mile" ∧ mileage_text.length < 30 then
      some mileage_text
    else pickMileage rest

/-- The price_elements variable of the source: the first of the three
XPath strategies that matched anything. -/
def fbPriceElements (link : FbLink) : List Element :=
  if link.priceStrategy1.isEmpty then
    if link.priceStrategy2.isEmpty then link.priceStrategy3
    else link.priceStrategy2
  else link.priceStrategy1

/-- The record built for one non-duplicate marketplace link: the 5-key
dict literal with the N/A sentinel, then price, title (first img alt) and
location/mileage extraction. -/
def buildFbRecord (link : FbLink) : PyDict :=
  let listing_data : PyDict :=
    [("url", link.href), ("title", some "N/A"), ("price", some "N/A"),
     ("mileage", some "N/A"), ("location", some "N/A")]
  let listing_data :=
    match pickPrice (fbPriceElements link) with
    | some price_text => dictSet listing_data "price" (some price_text)
    | none => listing_data
  let listing_data :=
    match link.imgs with
    | [] => listing_data
    | img :: _ =>
      match img.attrs "alt" with
      | some alt =>
        if alt ≠ "" then dictSet listing_data "title" (some (pyStrip alt))
        else listing_data
      | none => listing_data
  let listing_data :=
    match pickLocationOrMileage link.locationElements with
    | some (text, true) => dictSet listing_data "mileage" (some text)
    | some (text, false) => dictSet listing_data "location" (some text)
    | none => listing_data
  let listing_data :=
    if pyGet listing_data "mileage" = some "N/A" then
      match pickMileage link.mileageElements with
      | some mileage_text => dictSet listing_data "mileage" (some mileage_text)
      | none => listing_data
    else listing_data
  listing_data

/-- The enumeration loop of extract_all_listings with its seen-set of URLs
(href values, possibly None): duplicates are skipped silently, first seen
wins. -/
def fbExtractLoop : List FbLink → List (Option String) → List PyDict →
    List PyDict
  | [], _, listings => listings
  | link :: rest, seen_urls, listings =>
    let url := link.href
    if url ∈ seen_urls then fbExtractLoop rest seen_urls listings
    else fbExtractLoop rest (url :: seen_urls) (listings ++ [buildFbRecord link])

/-- FacebookMarketplaceScraper.extract_all_listings over the matched
marketplace link containers, in DOM order. -/
def extract_all_listings (marketplace_links : List FbLink) : List PyDict :=
  fbExtractLoop marketplace_links [] []

/-- First-seen deduplication of the href values relative to a seen-set:
the url values the loop above appends records for. -/
def fbDedup : List FbLink → List (Option String) → List (Option String)
  | [], _ => []
  | link :: rest, seen_urls =>
    if link.href ∈ seen_urls then fbDedup rest seen_urls
    else link.href :: fbDedup rest (link.href :: seen_urls)

/-! ## Session replay and fallback
(FacebookMarketplaceScraper.scrape_facebook_marketplace)

The orchestrator control flow is modelled as the sequence of externally
visible actions it performs, driven by the three inputs that decide the
path: whether a stored session file exists, whether loading it succeeds,
and the listing count the readiness probe observes after navigating the
replayed session to the marketplace. -/

/-- The externally visible actions of the Facebook orchestrator. -/
inductive FbEvent where
  | replayAttempt
  | probe (count : Nat)
  | discardDriver
  | interactiveLogin
  | saveSession
  | scrollAndExtract
deriving DecidableEq

/-- Control-flow skeleton of scrape_facebook_marketplace: a stored session
is replayed once in a headless context and probed; on a failed probe the
headless driver is discarded and the visible-mode interactive login flow
runs (which itself loads the stored cookies once more as a convenience and
saves the fresh session after login), after which scrolling and bulk
extraction proceed. -/
def scrape_facebook_marketplace_flow (session_exists load_ok : Bool)
    (test_count : Nat) : List FbEvent :=
  let headless :=
    if session_exists then
      if load_ok then
        if test_count > 0 then
          ([FbEvent.replayAttempt, FbEvent.probe test_count], true)
        else
          ([FbEvent.replayAttempt, FbEvent.probe test_count,
            FbEvent.discardDriver], false)
      else ([FbEvent.replayAttempt, FbEvent.discardDriver], false)
    else ([], false)
  if headless.2 then headless.1 ++ [FbEvent.scrollAndExtract]
  else
    headless.1 ++ [FbEvent.interactiveLogin, FbEvent.replayAttempt,
      FbEvent.saveSession, FbEvent.scrollAndExtract]

/-- The field names of the Facebook record, in insertion order. -/
def facebookFields : List String :=
  ["url", "title", "price", "mileage", "location"]

/-! ## Helper lemmas about the dict model -/

theorem dictGet_dictSet_self (m : PyDict) (k : String) (v : Option String) :
    dictGet (dictSet m k v) k = some v := by
  induction m with
  | nil => simp [dictSet, dictGet]
  | cons p rest ih =>
    by_cases h : p.1 = k <;> simp [dictSet, dictGet, h, ih]

theorem dictGet_dictSet_ne (m : PyDict) (k k' : String) (v : Option String)
    (h : k' ≠ k) : dictGet (dictSet m k' v) k = dictGet m k := by
  induction m with
  | nil => simp [dictSet, dictGet, h]
  | cons p rest ih =>
    by_cases hp : p.1 = k' <;> simp [dictSet, dictGet, hp, ih, h]

theorem keys_dictSet_of_mem (m : PyDict) (k : String) (v : Option String)
    (h : k ∈ m.map Prod.fst) :
    (dictSet m k v).map Prod.fst = m.map Prod.fst := by
  induction m with
  | nil => simp at h
  | cons p rest ih =>
    by_cases hp : p.1 = k
    · simp [dictSet, hp]
    · simp only [List.map_cons, List.mem_cons] at h
      rcases h with h | h

      · exact absurd h.symm hp
      · simp [dictSet, hp, ih h]

theorem allSome_dictSet (m : PyDict) (k : String) (v : String)
    (h : m.all (fun p => p.2.isSome) = true) :
    (dictSet m k (some v)).all (fun p => p.2.isSome) = true := by
  induction m with
  | nil => simp [dictSet]
  | cons p rest ih =>
    simp only [List.all_cons, Bool.and_eq_true] at h
    by_cases hp : p.1 = k <;>
      simp [dictSet, hp, h.1, h.2, ih h.2]

/-! ## Scroll controller lemmas -/

theorem scrollLoop_bound (countFn : Nat → Nat) :
    ∀ (remaining callIdx last_count no_change_count scrolls : Nat),
      (scrollLoop countFn remaining callIdx last_count no_change_count
          scrolls).1 ≤ callIdx + remaining ∧
      ((scrollLoop countFn remaining callIdx last_count no_change_count
          scrolls).2.2 = true ∨
        (scrollLoop countFn remaining callIdx last_count no_change_count
          scrolls).1 = callIdx + remaining) := by
  intro remaining
  induction remaining with
  | zero => intro callIdx lc nc s; simp [scrollLoop]
  | succ rem ih =>
    intro callIdx lc nc s
    simp only [scrollLoop]
    split
    · split
      · exact ⟨by omega, Or.inl rfl⟩
      · have h := ih (callIdx + 1) (countFn callIdx) (nc + 1) (s + 1)
        constructor
        · omega
        · rcases h.2 with h2 | h2
          · exact Or.inl h2
          · right; omega
    · have h := ih (callIdx + 1) (countFn callIdx) 0 (s + 1)
      constructor
      · omega
      · rcases h.2 with h2 | h2
        · exact Or.inl h2
        · right; omega

/-- C3: with the constant count sequence 5, 5, 5, ... and 10 allowed
attempts, the loop observes 5 on iteration 0 (a change from the initial
last_count 0), scrolls, then observes three consecutive stalls on
iterations 1 to 3 and breaks after issuing exactly 3 scroll-to-bottom
actions; the post-loop count call returns 5. -/
theorem claim3_constant_feed_stops_after_three_scrolls :
    wait_and_scroll (fun _ => 5) 10 =
      { finalCount := 5, scrolls := 3, iterations := 4, stalled := true } := by
  decide

/-- C4: for every count oracle and every attempt cap, the scroll
controller is a total function that runs at most the capped number of
iterations, stops either on the stall limit or on the cap, and returns
the count observed by its final post-loop call — a plain result, not an
error. -/
theorem claim4_scroll_controller_terminates_returns_final_count
    (countFn : Nat → Nat) (scroll_attempts : Nat) :
    (wait_and_scroll countFn scroll_attempts).finalCount =
        countFn (wait_and_scroll countFn scroll_attempts).iterations ∧
      (wait_and_scroll countFn scroll_attempts).iterations ≤ scroll_attempts ∧
      ((wait_and_scroll countFn scroll_attempts).stalled = true ∨
        (wait_and_scroll countFn scroll_attempts).iterations =
          scroll_attempts) := by
  have h := scrollLoop_bound countFn scroll_attempts 0 0 0 0
  refine ⟨rfl, ?_, ?_⟩
  · simpa using h.1
  · simpa using h.2

/-- C5: the discoverer applies strategy 2 only when strategy 1 collected
nothing, strategy 3 only when strategies 1 and 2 both collected nothing,
and returns exactly the first productive strategy's own result. -/
theorem claim5_discovery_escalation_short_circuit
    (uj : String → String → String) (search_url : String)
    (page : SearchPage) :
    extract_listing_urls uj search_url page =
      if craigslistStrategy1 uj search_url page = [] then
        if craigslistStrategy2 uj search_url page = [] then
          craigslistStrategy3 uj search_url page
        else craigslistStrategy2 uj search_url page
      else craigslistStrategy1 uj search_url page := by
  simp only [extract_listing_urls, craigslistStrategy1, craigslistStrategy2,
    craigslistStrategy3, List.length_eq_zero]
  by_cases h1 : page.resultNodes.foldl (nodeLinks uj search_url) [] = []
  · simp only [h1, if_pos rfl]
    by_cases h2 :
        page.searchResults.foldl (firstAnchorStep uj search_url) [] = []
    · simp [h2]
    · simp [h2]
  · simp [h1]

/-- C7: the title 2021 Ford F-150 XLT parses into year 2021, make Ford,
model F-150 XLT, while a title with no leading four-digit year leaves
year, make and model empty and the title field unchanged. -/
theorem claim7_title_parsing :
    (pyGet (extract_listing_details
        ⟨fun _ sel => if sel = "#titletextonly" then
            some ⟨"2021 Ford F-150 XLT", fun _ => none⟩ else none⟩
        "https://x/d/a/1.html" "ts") "title" = some "2021 Ford F-150 XLT" ∧
      pyGet (extract_listing_details
        ⟨fun _ sel => if sel = "#titletextonly" then
            some ⟨"2021 Ford F-150 XLT", fun _ => none⟩ else none⟩
        "https://x/d/a/1.html" "ts") "year" = some "2021" ∧
      pyGet (extract_listing_details
        ⟨fun _ sel => if sel = "#titletextonly" then
            some ⟨"2021 Ford F-150 XLT", fun _ => none⟩ else none⟩
        "https://x/d/a/1.html" "ts") "make" = some "Ford" ∧
      pyGet (extract_listing_details
        ⟨fun _ sel => if sel = "#titletextonly" then
            some ⟨"2021 Ford F-150 XLT", fun _ => none⟩ else none⟩
        "https://x/d/a/1.html" "ts") "model" = some "F-150 XLT") ∧
    (pyGet (extract_listing_details
        ⟨fun _ sel => if sel = "#titletextonly" then
            some ⟨"Great Deal Truck", fun _ => none⟩ else none⟩
        "https://x/d/a/1.html" "ts") "title" = some "Great Deal Truck" ∧
      pyGet (extract_listing_details
        ⟨fun _ sel => if sel = "#titletextonly" then
            some ⟨"Great Deal Truck", fun _ => none⟩ else none⟩
        "https://x/d/a/1.html" "ts") "year" = some "" ∧
      pyGet (extract_listing_details
        ⟨fun _ sel => if sel = "#titletextonly" then
            some ⟨"Great Deal Truck", fun _ => none⟩ else none⟩
        "https://x/d/a/1.html" "ts") "make" = some "" ∧
      pyGet (extract_listing_details
        ⟨fun _ sel => if sel = "#titletextonly" then
            some ⟨"Great Deal Truck", fun _ => none⟩ else none⟩
        "https://x/d/a/1.html" "ts") "model" = some "") := by
  decide

/-- C9: with a stored session whose cookies load but whose readiness probe
sees zero listings, the orchestrator performs exactly one headless replay
and probe, discards the headless driver, enters the interactive-login
fallback exactly once (that flow loads the stored cookies once more as a
convenience and saves the fresh session), and proceeds — no replay /
validate retry loop. -/
theorem claim9_session_replay_fallback_once :
    scrape_facebook_marketplace_flow true true 0 =
      [FbEvent.replayAttempt, FbEvent.probe 0, FbEvent.discardDriver,
        FbEvent.interactiveLogin, FbEvent.replayAttempt, FbEvent.saveSession,
        FbEvent.scrollAndExtract] ∧
    (scrape_facebook_marketplace_flow true true 0).count
        FbEvent.interactiveLogin = 1 ∧
    (scrape_facebook_marketplace_flow true true 0).count
        FbEvent.discardDriver = 1 := by
  decide

/-- C6: the field-extraction primitives are total functions of the driver
answer (no exception escapes): when the lookup fails they return the empty
string; when the element exists the text primitive returns its stripped
text, and the attribute primitive returns the empty string if the
attribute is absent and the attribute value otherwise. -/
theorem claim6_safe_find_primitives_total (d : Driver)
    (selector attr method : String) :
    (d.find (methodToBy method) selector = none →
      safe_find_element_text d selector method = "" ∧
      safe_find_element_attribute d selector attr method = "") ∧
    (∀ e, d.find (methodToBy method) selector = some e →
      safe_find_element_text d selector method = pyStrip e.text ∧
      (e.attrs attr = none →
        safe_find_element_attribute d selector attr method = "") ∧
      (∀ v, e.attrs attr = some v →
        safe_find_element_attribute d selector attr method = v)) := by
  constructor
  · intro h
    simp [safe_find_element_text, safe_find_element_attribute, h]
  · intro e he
    refine ⟨?_, ?_, ?_⟩
    · simp [safe_find_element_text, he]
    · intro ha
      simp [safe_find_element_attribute, he, ha]
    · intro v hv
      simp [safe_find_element_attribute, he, hv]

/-- Witness for C6 at a concrete driver: a failing lookup yields the empty
string from both primitives, and a found element with a missing attribute
yields its stripped text and the empty attribute value. -/
theorem claim6_witness :
    (safe_find_element_text ⟨fun _ _ => none⟩ ".price" "css" = "" ∧
      safe_find_element_attribute ⟨fun _ _ => none⟩ ".price" "href" "css" = "") ∧
    safe_find_element_text
      ⟨fun _ _ => some ⟨" $9,000 ", fun _ => none⟩⟩ ".price" "css" = "$9,000" ∧
    safe_find_element_attribute
      ⟨fun _ _ => some ⟨" $9,000 ", fun _ => none⟩⟩ ".price" "href" "css" = "" := by
  refine ⟨(claim6_safe_find_primitives_total ⟨fun _ _ => none⟩
    ".price" "href" "css").1 rfl, ?_, ?_⟩
  · exact ((claim6_safe_find_primitives_total
      ⟨fun _ _ => some ⟨" $9,000 ", fun _ => none⟩⟩ ".price" "href" "css").2
      ⟨" $9,000 ", fun _ => none⟩ rfl).1.trans (by decide)
  · exact ((claim6_safe_find_primitives_total
      ⟨fun _ _ => some ⟨" $9,000 ", fun _ => none⟩⟩ ".price" "href" "css").2
      ⟨" $9,000 ", fun _ => none⟩ rfl).2.1 rfl

/-! ## Craigslist visiting loop as a map-and-filter -/

/-- The minimum-signal check applied to a built record. -/
def minimumSignal (r : PyDict) : Bool :=
  pyTruthy (pyGet r "title") || pyTruthy (pyGet r "price") ||
    pyTruthy (pyGet r "vin")

theorem craigslistVisitLoop_eq (site : String → Driver) (now : String) :
    ∀ (urls : List String) (acc : List PyDict),
      craigslistVisitLoop site now urls acc =
        acc ++ (urls.map
            (fun url => extract_listing_details (site url) url now)).filter
          minimumSignal := by
  intro urls
  induction urls with
  | nil => intro acc; simp [craigslistVisitLoop]
  | cons url rest ih =>
    intro acc
    simp only [craigslistVisitLoop, List.map_cons, List.filter_cons,
      minimumSignal]
    by_cases h :
        (pyTruthy (pyGet (extract_listing_details (site url) url now) "title") ||
          pyTruthy (pyGet (extract_listing_details (site url) url now) "price") ||
          pyTruthy (pyGet (extract_listing_details (site url) url now) "vin")) = true
    · simp [h, ih]
    · simp only [Bool.not_eq_true] at h
      simp [h, ih]

/-- C2 (amended): a record is appended for a detail URL exactly when the
built record's title, price or vin field is truthy — equivalently, the
output of the run is the filter of the built records under the
minimum-signal check.  The record's title, however, is not always the
extracted title: when extraction finds no title it is synthesized from the
URL's last path segment, so a detail page yielding empty title, price and
vin still produces a record whenever that URL-derived fallback is
non-empty. -/
theorem claim2_minimum_signal_filter (uj : String → String → String)
    (search_url : String) (page : SearchPage) (site : String → Driver)
    (now : String) (max_listings : Option Nat) :
    scrape_craigslist uj search_url page site now max_listings =
      ((limitListings max_listings
          (extract_listing_urls uj search_url page)).map
        (fun url => extract_listing_details (site url) url now)).filter
          minimumSignal := by
  simp only [scrape_craigslist]
  by_cases h : extract_listing_urls uj search_url page = []
  · have hl : limitListings max_listings
        (extract_listing_urls uj search_url page) = [] := by
      rw [h]
      cases max_listings with
      | none => rfl
      | some n => simp [limitListings]
    rw [hl]
    simp [h]
  · simp [h, craigslistVisitLoop_eq]

/-- C2 (counterexample to the claim as stated): a detail page on which
every extraction comes back empty — title, price and vin included — still
produces a record, because the empty title is replaced by the URL-derived
synthesis (here 123, from the last path segment 123.html).  The claim's
assertion that such a page produces no record is therefore false. -/
theorem claim2_counterexample :
    safe_find_element_text ⟨fun _ _ => none⟩ "#titletextonly" "id" = "" ∧
    safe_find_element_text ⟨fun _ _ => none⟩ ".price" "css" = "" ∧
    safe_find_element_text ⟨fun _ _ => none⟩ ".attr.auto_vin .valu" "css" = "" ∧
    (scrape_craigslist (fun _ h => h) "https://bend.craigslist.org/search"
      ⟨[[some "https://bend.craigslist.org/d/2021-ford/123.html"]], [], []⟩
      (fun _ => ⟨fun _ _ => none⟩) "ts" none).length = 1 ∧
    pyGet ((scrape_craigslist (fun _ h => h) "https://bend.craigslist.org/search"
      ⟨[[some "https://bend.craigslist.org/d/2021-ford/123.html"]], [], []⟩
      (fun _ => ⟨fun _ _ => none⟩) "ts" none).getLastD []) "title" = some "123" ∧
    pyGet ((scrape_craigslist (fun _ h => h) "https://bend.craigslist.org/search"
      ⟨[[some "https://bend.craigslist.org/d/2021-ford/123.html"]], [], []⟩
      (fun _ => ⟨fun _ _ => none⟩) "ts" none).getLastD []) "price" = some "" ∧
    pyGet ((scrape_craigslist (fun _ h => h) "https://bend.craigslist.org/search"
      ⟨[[some "https://bend.craigslist.org/d/2021-ford/123.html"]], [], []⟩
      (fun _ => ⟨fun _ _ => none⟩) "ts" none).getLastD []) "vin" = some "" := by
  decide

/-! ## Record shape lemmas -/

/-- The shape invariant of a record under construction: its key list is
exactly the given schema and every value is a string (not None). -/
def goodShape (keys : List String) (m : PyDict) : Prop :=
  m.map Prod.fst = keys ∧ m.all (fun p => p.2.isSome) = true

theorem goodShape_dictSet {keys : List String} {m : PyDict} {k v : String}
    (h : goodShape keys m) (hk : k ∈ keys) :
    goodShape keys (dictSet m k (some v)) := by
  refine ⟨?_, allSome_dictSet m k v h.2⟩
  rw [keys_dictSet_of_mem m k (some v) (h.1 ▸ hk), h.1]

theorem goodShape_titleStep {m : PyDict} (d : Driver) (listing_url : String)
    (h : goodShape craigslistFields m) :
    goodShape craigslistFields (craigslistTitleStep d listing_url m) := by
  simp only [craigslistTitleStep]
  repeat' split
  all_goals first
    | exact goodShape_dictSet (goodShape_dictSet (goodShape_dictSet
        (goodShape_dictSet h (by decide)) (by decide)) (by decide)) (by decide)
    | exact goodShape_dictSet h (by decide)

theorem goodShape_fieldStep {m : PyDict} (d : Driver) (key selector : String)
    (hkey : key ∈ craigslistFields) (h : goodShape craigslistFields m) :
    goodShape craigslistFields (craigslistFieldStep d key selector m) :=
  goodShape_dictSet h hkey

theorem goodShape_locationStep {m : PyDict} (d : Driver)
    (h : goodShape craigslistFields m) :
    goodShape craigslistFields (craigslistLocationStep d m) := by
  simp only [craigslistLocationStep]
  repeat' split
  all_goals first
    | exact h
    | exact goodShape_dictSet h (by decide)

theorem goodShape_dateStep {m : PyDict} (d : Driver)
    (h : goodShape craigslistFields m) :
    goodShape craigslistFields (craigslistDateStep d m) := by
  simp only [craigslistDateStep]
  repeat' split
  all_goals first
    | exact goodShape_dictSet h (by decide)
    | exact h

theorem craigslist_record_shape (d : Driver) (listing_url now : String) :
    (extract_listing_details d listing_url now).map Prod.fst =
        craigslistFields ∧
      (extract_listing_details d listing_url now).all
        (fun p => p.2.isSome) = true := by
  have hbase : goodShape craigslistFields (craigslistBaseRecord listing_url now) := by
    constructor <;> rfl
  exact goodShape_dateStep d
    (goodShape_dictSet
      (goodShape_locationStep d
        (goodShape_fieldStep d _ _ (by decide)
          (goodShape_fieldStep d _ _ (by decide)
            (goodShape_fieldStep d _ _ (by decide)
              (goodShape_fieldStep d _ _ (by decide)
                (goodShape_fieldStep d _ _ (by decide)
                  (goodShape_fieldStep d _ _ (by decide)
                    (goodShape_fieldStep d _ _ (by decide)
                      (goodShape_fieldStep d _ _ (by decide)
                        (goodShape_fieldStep d _ _ (by decide)
                          (goodShape_titleStep d listing_url hbase)))))))))))
      (by decide))

theorem fb_record_shape (link : FbLink) :
    (buildFbRecord link).map Prod.fst = facebookFields := by
  simp only [buildFbRecord]
  repeat' split
  all_goals simp [dictSet, facebookFields]

theorem fbExtractLoop_mem :
    ∀ (links : List FbLink) (seen : List (Option String))
      (listings : List PyDict) (r : PyDict),
      r ∈ fbExtractLoop links seen listings →
      r ∈ listings ∨ ∃ l ∈ links, r = buildFbRecord l := by
  intro links
  induction links with
  | nil =>
    intro seen listings r h
    simp only [fbExtractLoop] at h
    exact Or.inl h
  | cons link rest ih =>
    intro seen listings r h
    simp only [fbExtractLoop] at h
    split at h
    · rcases ih _ _ _ h with h' | ⟨l, hl, he⟩
      · exact Or.inl h'
      · exact Or.inr ⟨l, List.mem_cons_of_mem _ hl, he⟩
    · rcases ih _ _ _ h with h' | ⟨l, hl, he⟩
      · rcases List.mem_append.1 h' with h'' | h''
        · exact Or.inl h''
        · exact Or.inr ⟨link, List.mem_cons_self _ _, by
            simpa using h''⟩
      · exact Or.inr ⟨l, List.mem_cons_of_mem _ hl, he⟩

/-- C1 (counterexample to the claim as stated): the Facebook
bulk-extraction pass emits records with only five keys and the N/A
sentinel.  A container with no extractable sub-elements yields a record
with no vin key at all and with price N/A rather than the empty string,
contradicting the claimed uniform schema with empty-string sentinels
across both pipelines. -/
theorem claim1_counterexample :
    extract_all_listings [⟨some "u", [], [], [], [], [], []⟩] =
      [[("url", some "u"), ("title", some "N/A"), ("price", some "N/A"),
        ("mileage", some "N/A"), ("location", some "N/A")]] ∧
    dictGet ((extract_all_listings
      [⟨some "u", [], [], [], [], [], []⟩]).getLastD []) "vin" = none ∧
    pyGet ((extract_all_listings
      [⟨some "u", [], [], [], [], [], []⟩]).getLastD []) "price" = some "N/A" := by
  decide

/-- C1 (amended): each pipeline has its own fixed key set.  Every record
built by the Craigslist detail builder carries exactly the 19 schema keys
in order, every value a string (empty string for unresolved fields, never
None); every record emitted by the Facebook bulk pass carries exactly the
five keys url, title, price, mileage, location, with the N/A sentinel for
unresolved fields (and the raw href, possibly None, under url). -/
theorem claim1_field_presence_per_pipeline :
    (∀ (d : Driver) (listing_url now : String),
      (extract_listing_details d listing_url now).map Prod.fst =
          craigslistFields ∧
        (extract_listing_details d listing_url now).all
          (fun p => p.2.isSome) = true) ∧
    (∀ (marketplace_links : List FbLink) (r : PyDict),
      r ∈ extract_all_listings marketplace_links →
      r.map Prod.fst = facebookFields) := by
  constructor
  · intro d listing_url now
    exact craigslist_record_shape d listing_url now
  · intro marketplace_links r hr
    rcases fbExtractLoop_mem marketplace_links [] [] r hr with h | ⟨l, _, he⟩
    · simp at h
    · rw [he]
      exact fb_record_shape l

/-- Witness for C1 (amended) at concrete inputs: a Craigslist detail page
with no extractable elements yields a 19-key all-string record, and a bare
Facebook container yields the 5-key record. -/
theorem claim1_witness :
    (extract_listing_details ⟨fun _ _ => none⟩
        "https://x/d/a/1.html" "ts").map Prod.fst = craigslistFields ∧
    ([("url", some "u"), ("title", some "N/A"), ("price", some "N/A"),
      ("mileage", some "N/A"), ("location", some "N/A")] : PyDict).map
        Prod.fst = facebookFields := by
  refine ⟨(claim1_field_presence_per_pipeline.1 ⟨fun _ _ => none⟩
    "https://x/d/a/1.html" "ts").1, ?_⟩
  exact claim1_field_presence_per_pipeline.2
    [⟨some "u", [], [], [], [], [], []⟩]
    [("url", some "u"), ("title", some "N/A"), ("price", some "N/A"),
      ("mileage", some "N/A"), ("location", some "N/A")] (by decide)

/-! ## Deduplication lemmas -/

theorem nodeLinks_nodup (uj : String → String → String) (search_url : String) :
    ∀ (anchors : List (Option String)) (acc : List String),
      acc.Nodup → (nodeLinks uj search_url acc anchors).Nodup := by
  intro anchors
  induction anchors with
  | nil => intro acc h; simpa [nodeLinks] using h
  | cons a rest ih =>
    intro acc h
    match a with
    | none => simpa [nodeLinks] using ih acc h
    | some href =>
      simp only [nodeLinks]
      split
      · split
        · exact ih acc h
        · next hmem => simp [List.nodup_append, h, hmem]
      · exact ih acc h

theorem firstAnchorStep_nodup (uj : String → String → String)
    (search_url : String) (acc : List String)
    (anchors : List (Option String)) (h : acc.Nodup) :
    (firstAnchorStep uj search_url acc anchors).Nodup := by
  match anchors with
  | [] => simpa [firstAnchorStep] using h
  | none :: _ => simpa [firstAnchorStep] using h
  | some href :: _ =>
    simp only [firstAnchorStep]
    split
    · split
      · exact h
      · next hmem => simp [List.nodup_append, h, hmem]
    · exact h

theorem foldl_nodup {α : Type} (f : List String → α → List String)
    (hf : ∀ acc a, acc.Nodup → (f acc a).Nodup) :
    ∀ (l : List α) (acc : List String), acc.Nodup → (l.foldl f acc).Nodup := by
  intro l
  induction l with
  | nil => intro acc h; simpa using h
  | cons a rest ih =>
    intro acc h
    simpa [List.foldl_cons] using ih (f acc a) (hf acc a h)

theorem fb_record_url (link : FbLink) :
    dictGet (buildFbRecord link) "url" = some link.href := by
  simp only [buildFbRecord]
  repeat' split
  all_goals simp [dictGet_dictSet_ne, dictGet]

theorem fbExtractLoop_map_url :
    ∀ (links : List FbLink) (seen : List (Option String))
      (listings : List PyDict),
      (fbExtractLoop links seen listings).map (fun r => dictGet r "url") =
        listings.map (fun r => dictGet r "url") ++
          (fbDedup links seen).map some := by
  intro links
  induction links with
  | nil => intro seen listings; simp [fbExtractLoop, fbDedup]
  | cons link rest ih =>
    intro seen listings
    simp only [fbExtractLoop, fbDedup]
    split
    · simp [ih]
    · rw [ih]
      simp [fb_record_url]

theorem fbDedup_nodup_not_seen :
    ∀ (links : List FbLink) (seen : List (Option String)),
      (fbDedup links seen).Nodup ∧ ∀ u ∈ fbDedup links seen, u ∉ seen := by
  intro links
  induction links with
  | nil => intro seen; simp [fbDedup]
  | cons link rest ih =>
    intro seen
    simp only [fbDedup]
    split
    · exact ih seen
    · next hmem =>
      have h := ih (link.href :: seen)
      refine ⟨List.nodup_cons.2 ⟨fun hc => (h.2 _ hc) (List.mem_cons_self _ _),
        h.1⟩, ?_⟩
      intro u hu
      rcases List.mem_cons.1 hu with rfl | hu'
      · exact hmem
      · exact fun hus => (h.2 _ hu') (List.mem_cons_of_mem _ hus)

theorem fbDedup_mem :
    ∀ (links : List FbLink) (seen : List (Option String)) (u : Option String),
      u ∈ fbDedup links seen ↔ u ∈ links.map FbLink.href ∧ u ∉ seen := by
  intro links
  induction links with
  | nil => intro seen u; simp [fbDedup]
  | cons link rest ih =>
    intro seen u
    simp only [fbDedup, List.map_cons]
    split
    · next hmem =>
      rw [ih]
      constructor
      · rintro ⟨h1, h2⟩
        exact ⟨List.mem_cons_of_mem _ h1, h2⟩
      · rintro ⟨h1, h2⟩
        rcases List.mem_cons.1 h1 with rfl | h1'
        · exact absurd hmem h2
        · exact ⟨h1', h2⟩
    · next hmem =>
      constructor
      · intro hu
        rcases List.mem_cons.1 hu with rfl | hu'
        · exact ⟨List.mem_cons_self _ _, hmem⟩
        · have h := (ih (link.href :: seen) u).1 hu'
          exact ⟨List.mem_cons_of_mem _ h.1,
            fun hs => h.2 (List.mem_cons_of_mem _ hs)⟩
      · rintro ⟨h1, h2⟩
        rcases List.mem_cons.1 h1 with rfl | h1'
        · exact List.mem_cons_self _ _
        · by_cases hcase : u = link.href
          · rw [hcase]; exact List.mem_cons_self _ _
          · refine List.mem_cons_of_mem _ ((ih (link.href :: seen) u).2
              ⟨h1', ?_⟩)
            intro hs
            rcases List.mem_cons.1 hs with h | h
            · exact hcase h
            · exact h2 h

/-- C8: URL deduplication in both pipelines.  The discoverer's output
list contains no duplicate URL (membership is checked before every
append, first seen wins), and the bulk-extraction pass emits no two
records with the same url value while emitting one record for every
distinct href among the containers — so two containers pointing at the
same URL yield exactly one record.  (Both functions are pure, so running
discovery twice over the unchanged page trivially repeats the same
list.) -/
theorem claim8_url_deduplication (uj : String → String → String)
    (search_url : String) (page : SearchPage)
    (marketplace_links : List FbLink) :
    (extract_listing_urls uj search_url page).Nodup ∧
    ((extract_all_listings marketplace_links).map
      (fun r => dictGet r "url")).Nodup ∧
    (∀ u : Option String,
      some u ∈ (extract_all_listings marketplace_links).map
        (fun r => dictGet r "url") ↔
      u ∈ marketplace_links.map FbLink.href) := by
  have h1 : ∀ acc a, List.Nodup acc →
      (nodeLinks uj search_url acc a).Nodup :=
    fun acc a h => nodeLinks_nodup uj search_url a acc h
  have h2 : ∀ acc a, List.Nodup acc →
      (firstAnchorStep uj search_url acc a).Nodup :=
    fun acc a h => firstAnchorStep_nodup uj search_url acc a h
  have hA : (page.resultNodes.foldl (nodeLinks uj search_url) []).Nodup :=
    foldl_nodup _ h1 _ _ List.nodup_nil
  have hB := foldl_nodup _ h2 page.searchResults _ hA
  have hC := foldl_nodup _ h2 page.pidElements _ hB
  refine ⟨?_, ?_, ?_⟩
  · simp only [extract_listing_urls]
    repeat' split
    all_goals assumption
  · rw [extract_all_listings, fbExtractLoop_map_url]
    simp only [List.map_nil, List.nil_append]
    exact (fbDedup_nodup_not_seen marketplace_links []).1.map
      (Option.some_injective _)
  · intro u
    rw [extract_all_listings, fbExtractLoop_map_url]
    simp only [List.map_nil, List.nil_append, List.mem_map,
      Option.some.injEq]
    constructor
    · rintro ⟨a, ha, rfl⟩
      exact List.mem_map.mp ((fbDedup_mem marketplace_links [] a).1 ha).1
    · intro hu
      exact ⟨u, (fbDedup_mem marketplace_links [] u).2
        ⟨List.mem_map.mpr hu, by simp⟩, rfl⟩

/-! ## Facebook price shape lemmas -/

theorem pickPrice_spec :
    ∀ (es : List Element) (t : String), pickPrice es = some t →
      pyStartsWith t "$" = true ∧ t.data.any Char.isDigit = true ∧
        1 < t.length ∧ t.length < 30 := by
  intro es
  induction es with
  | nil => intro t h; simp [pickPrice] at h
  | cons e rest ih =>
    intro t h
    simp only [pickPrice] at h
    split at h
    · split at h
      · next h2 =>
        next h1 =>
          injection h with h3
          rw [← h3]
          exact ⟨h2.1, h2.2, h1.2.2, h1.2.1⟩
      · exact ih t h
    · exact ih t h

theorem fb_record_price_eq (link : FbLink) :
    pyGet (buildFbRecord link) "price" =
      some ((pickPrice (fbPriceElements link)).getD "N/A") := by
  simp only [buildFbRecord, pyGet]
  repeat' split
  all_goals
    simp_all [dictGet_dictSet_ne, dictGet_dictSet_self, dictGet]

/-- C10: every record emitted by the Facebook bulk-extraction pass whose
price differs from the N/A sentinel carries a price string that starts
with a dollar sign, contains a digit, and has length strictly between 1
and 30 — exactly the guard the price-selection loop enforces before
storing a candidate. -/
theorem claim10_fb_price_shape (marketplace_links : List FbLink)
    (r : PyDict) (hr : r ∈ extract_all_listings marketplace_links)
    (p : String) (hp : pyGet r "price" = some p) (hne : p ≠ "N/A") :
    pyStartsWith p "$" = true ∧ p.data.any Char.isDigit = true ∧
      1 < p.length ∧ p.length < 30 := by
  rcases fbExtractLoop_mem marketplace_links [] [] r hr with h | ⟨l, _, he⟩
  · simp at h
  · rw [he, fb_record_price_eq] at hp
    injection hp with hpv
    cases hcase : pickPrice (fbPriceElements l) with
    | none =>
      rw [hcase] at hpv
      simp at hpv
      exact absurd hpv.symm hne
    | some t =>
      rw [hcase] at hpv
      simp at hpv
      rw [← hpv]
      exact pickPrice_spec _ t hcase

/-- Witness for C10 at a concrete container whose first price strategy
matches a span with text a well-formed price. -/
theorem claim10_witness :
    pyStartsWith "$5,000" "$" = true ∧
      ("$5,000" : String).data.any Char.isDigit = true ∧
      1 < ("$5,000" : String).length ∧ ("$5,000" : String).length < 30 :=
  claim10_fb_price_shape
    [⟨some "u", [⟨"$5,000", fun _ => none⟩], [], [], [], [], []⟩]
    [("url", some "u"), ("title", some "N/A"), ("price", some "$5,000"),
      ("mileage", some "N/A"), ("location", some "N/A")]
    (by decide) "$5,000" (by decide) (by decide)

end TruckScraper
